import Mathlib

/-!
Verification of the AP-manager backend core against its specification.

Shallow embedding of the Python source under `backend/app`:
* `rules/match_engine.py` — 2-way match header check, per-line check, overall
  status, rule loading, and the persistence/auto-approval gate;
* `services/approval.py` — approval decision processing (web and email channel);
* `services/duplicate_detection.py` — exact and fuzzy duplicate checks;
* `api/v1/rules.py` — rule version publishing;
* `workers/tasks.py` — the invoice pipeline status trace.

Monetary amounts and quantities are modeled as rationals, timestamps as
integers, database rows as records in lists.  Fallible operations return
`Except`; an `Except.error` result leaves every modeled row untouched, which
embeds the transactional rollback on raised errors in the source.
-/

namespace APM

/-- Invoice status values of the state machine (`models/invoice.py`). -/
inductive InvoiceStatus
  | ingested | extracting | extracted | matching | matched
  | exception | approved | paid | rejected | cancelled
deriving DecidableEq, Repr

/-- Match status values produced by the match engine (`rules/match_engine.py`,
`MatchResult.match_status`).  The source stores the string `partial`; it is
named `partialMatch` here. -/
inductive MatchStatus
  | matched | partialMatch | exception | pending
deriving DecidableEq, Repr

/-- Exception codes (`models/exception_record.py`, spec section 4.3). -/
inductive ExcCode
  | PRICE_VARIANCE | QTY_VARIANCE | QTY_OVER_RECEIPT | GRN_NOT_FOUND
  | MISSING_PO | VENDOR_MISMATCH | DUPLICATE_INVOICE | FRAUD_FLAG
  | EXTRACTION_LOW_CONFIDENCE | EXTRACTION_DISCREPANCY | COMPLIANCE_MISSING
  | AMOUNT_OVER_THRESHOLD | VENDOR_DISPUTE | OTHER
deriving DecidableEq, Repr

/-- Exception severities. -/
inductive Severity
  | low | medium | high | critical
deriving DecidableEq, Repr

/-! ### Match-result persistence and the auto-approval gate

Embeds `_persist_match_result` (`rules/match_engine.py` lines 689-721): the
decision of the new invoice status from the computed match status, the invoice
total and the active tolerance config, and whether an approval task is
auto-created. -/

/-- `can_auto_approve` from `_persist_match_result`: the match status must be
`matched`, the invoice total within the threshold, and (redundantly, as in the
source) `auto_approve_requires_match` implies a `matched` status. -/
def canAutoApprove (ms : MatchStatus) (invTotal threshold : ℚ)
    (requiresMatch : Bool) : Bool :=
  ms == .matched && decide (invTotal ≤ threshold)
    && (!requiresMatch || ms == .matched)

/-- The invoice status written by `_persist_match_result`: `approved` when
auto-approval fires, `matched` when the match status is `matched` or `partial`,
`exception` otherwise. -/
def persistNewStatus (ms : MatchStatus) (invTotal threshold : ℚ)
    (requiresMatch : Bool) : InvoiceStatus :=
  if canAutoApprove ms invTotal threshold requiresMatch then .approved
  else if ms == .matched || ms == .partialMatch then .matched
  else .exception

/-- `_persist_match_result` attempts to auto-create an approval task exactly
when the new invoice status is `matched`. -/
def persistCreatesApprovalTask (ms : MatchStatus) (invTotal threshold : ℚ)
    (requiresMatch : Bool) : Bool :=
  persistNewStatus ms invTotal threshold requiresMatch == .matched

/-- C1 counterexample: the claim requires a `partial` match with total at or
below the threshold to set the invoice status to `exception`, but the code
sets it to `matched` (total 100 is below the default threshold 5000). -/
theorem persistNewStatus_partial_below_threshold :
    persistNewStatus .partialMatch 100 5000 true = .matched := rfl

/-- C1 (amended): after the matching engine persists a result, a `matched`
match status with total at or below the threshold auto-approves the invoice;
a `matched` status above the threshold, or a `partial` status at any total,
sets the invoice to `matched` and attempts approval-task creation; an
`exception` or `pending` match status sets the invoice to `exception`.
Totals exactly equal to the threshold auto-approve. -/
theorem persistNewStatus_spec (ms : MatchStatus) (invTotal threshold : ℚ)
    (requiresMatch : Bool) :
    (ms = .matched → invTotal ≤ threshold →
      persistNewStatus ms invTotal threshold requiresMatch = .approved)
    ∧ ((ms = .matched ∧ threshold < invTotal) ∨ ms = .partialMatch →
      persistNewStatus ms invTotal threshold requiresMatch = .matched ∧
        persistCreatesApprovalTask ms invTotal threshold requiresMatch = true)
    ∧ (ms = .exception ∨ ms = .pending →
      persistNewStatus ms invTotal threshold requiresMatch = .exception) := by
  refine ⟨?_, ?_, ?_⟩
  · rintro rfl hle
    simp [persistNewStatus, canAutoApprove, hle]
  · rintro (⟨rfl, hlt⟩ | rfl)
    · have hnle : ¬ invTotal ≤ threshold := not_le.mpr hlt
      simp [persistNewStatus, persistCreatesApprovalTask, canAutoApprove, hnle]
    · simp [persistNewStatus, persistCreatesApprovalTask, canAutoApprove]
  · rintro (rfl | rfl) <;> simp [persistNewStatus, canAutoApprove]

/-- C1 witness: a `matched` result with total 4800 below threshold 5000
auto-approves. -/
theorem persistNewStatus_spec_witness :
    persistNewStatus .matched 4800 5000 true = .approved :=
  (persistNewStatus_spec .matched 4800 5000 true).1 rfl (by norm_num)

/-! ### 2-way match: header check, line check, overall status

Embeds `run_2way_match` (`rules/match_engine.py` lines 286-395) for the path
where a PO was resolved.  The pairing of an invoice line with a PO line (line
number equality, else description word-overlap similarity with cutoff 0.1) is
abstracted into the `InvLinePairing` input: `unpaired` stands for a line with
no PO line of similarity at least 0.1, `paired` carries the quantities and
unit prices of the invoice line and its paired PO line. -/

/-- Header amount check of `run_2way_match`: the variance percentage is the
absolute difference over the PO total when that is positive, else 0 for a zero
invoice total and 1 otherwise; the header passes when the percentage is within
`amount_tolerance_pct` or the absolute difference within
`amount_tolerance_abs`. -/
def headerCheck (invTotal poTotal amtTolPct amtTolAbs : ℚ) : Bool :=
  let amtDiff := |invTotal - poTotal|
  let amtDiffPct : ℚ :=
    if 0 < poTotal then amtDiff / poTotal
    else if invTotal = 0 then 0 else 1
  decide (amtDiffPct ≤ amtTolPct) || decide (amtDiff ≤ amtTolAbs)

/-- Status of one line match (`LineItemMatch.status`). -/
inductive LineStatus
  | matched | qty_variance | price_variance | unmatched
deriving DecidableEq, Repr

/-- One invoice line as seen by the line-level check: either no PO line was
paired with it, or it was paired with a PO line with the given quantities and
unit prices. -/
inductive InvLinePairing
  | unpaired
  | paired (invQty poQty invPrice poPrice : ℚ)
deriving DecidableEq

/-- Result of evaluating one invoice line: the persisted line status, the
exception code recorded on the line detail, and the codes added to the
run-wide `exception_codes` set. -/
structure LineEval where
  status : LineStatus
  excCode : Option ExcCode
  codes : List ExcCode
deriving DecidableEq, Repr

/-- Per-line check of `run_2way_match`: quantity is in tolerance when the
relative variance is within `qty_tolerance_pct` (equality required on a
zero PO quantity); price is in tolerance when the variance percentage is
within `amount_tolerance_pct` or the absolute variance within
`amount_tolerance_abs`. -/
def evalLine (amtTolPct amtTolAbs qtyTolPct : ℚ) :
    InvLinePairing → LineEval
  | .unpaired => ⟨.unmatched, some .MISSING_PO, [.MISSING_PO]⟩
  | .paired invQty poQty invPrice poPrice =>
    let qtyVar := invQty - poQty
    let priceVar := invPrice - poPrice
    let priceVarPct : ℚ := if 0 < poPrice then |priceVar| / poPrice else 0
    let qtyOk : Bool :=
      if 0 < poQty then decide (|qtyVar| / poQty ≤ qtyTolPct)
      else decide (qtyVar = 0)
    let priceOk : Bool :=
      decide (priceVarPct ≤ amtTolPct) || decide (|priceVar| ≤ amtTolAbs)
    if qtyOk && priceOk then ⟨.matched, none, []⟩
    else if !qtyOk && !priceOk then
      ⟨.qty_variance, some .QTY_VARIANCE, [.QTY_VARIANCE, .PRICE_VARIANCE]⟩
    else if !qtyOk then ⟨.qty_variance, some .QTY_VARIANCE, [.QTY_VARIANCE]⟩
    else ⟨.price_variance, some .PRICE_VARIANCE, [.PRICE_VARIANCE]⟩

/-- Overall `match_status` and accumulated exception codes of a 2-way match
run with a resolved PO (`run_2way_match` lines 365-395).  The source keeps
`exception_codes` as a set; here the list of inserted codes stands for it and
only membership is meaningful. -/
def run2WayOutcome (amtTolPct amtTolAbs qtyTolPct invTotal poTotal : ℚ)
    (lines : List InvLinePairing) : MatchStatus × List ExcCode :=
  let headerOk := headerCheck invTotal poTotal amtTolPct amtTolAbs
  let evals := lines.map (evalLine amtTolPct amtTolAbs qtyTolPct)
  let totalLines := lines.length
  let outOfTol := (evals.filter (fun e =>
    e.status == .qty_variance || e.status == .price_variance)).length
  let unmatchedCount := (evals.filter (fun e => e.status == .unmatched)).length
  let matchedLines := (evals.filter (fun e => e.status == .matched)).length
  let codes := (evals.foldl (fun acc e => acc ++ e.codes) [])
      ++ (if headerOk then [] else [.PRICE_VARIANCE])
  let overall : MatchStatus :=
    if !headerOk then .exception
    else if totalLines == 0 then (if headerOk then .matched else .exception)
    else if outOfTol == 0 && unmatchedCount == 0 then .matched
    else if matchedLines == 0 then .exception
    else .partialMatch
  (overall, codes)

/-- C7 counterexample: with a PO total of 0 and the default tolerances
(2 percent, absolute 50), an invoice total of 30 passes the header check via
the absolute tolerance even though it is nonzero, contradicting the claim
that only a zero invoice total passes. -/
theorem headerCheck_zero_po_nonzero_total_passes :
    headerCheck 30 0 (2/100) 50 = true := by
  norm_num [headerCheck]

/-- C7 (amended): in a 2-way match where the PO total is 0 (with a
percentage tolerance that is nonnegative and below 1, as the defaults are),
the header check passes exactly when the invoice total is 0 or its absolute
value is within `amount_tolerance_abs`; whenever the header check fails, the
overall match status is `exception` and the `PRICE_VARIANCE` code is
recorded. -/
theorem headerCheck_zero_po_spec (invTotal amtTolPct amtTolAbs qtyTolPct : ℚ)
    (lines : List InvLinePairing)
    (h0 : 0 ≤ amtTolPct) (h1 : amtTolPct < 1) :
    (headerCheck invTotal 0 amtTolPct amtTolAbs = true ↔
      invTotal = 0 ∨ |invTotal| ≤ amtTolAbs)
    ∧ (headerCheck invTotal 0 amtTolPct amtTolAbs = false →
      (run2WayOutcome amtTolPct amtTolAbs qtyTolPct invTotal 0 lines).1
          = .exception ∧
        ExcCode.PRICE_VARIANCE ∈
          (run2WayOutcome amtTolPct amtTolAbs qtyTolPct invTotal 0 lines).2) := by
  constructor
  · by_cases hz : invTotal = 0
    · subst hz
      simp [headerCheck, h0]
    · have hnot : ¬ (1 : ℚ) ≤ amtTolPct := not_le.mpr h1
      simp [headerCheck, hz, hnot]
  · intro hfail
    refine ⟨?_, ?_⟩
    · simp [run2WayOutcome, hfail]
    · simp [run2WayOutcome, hfail]

/-- C7 witness: invoice total 60 against PO total 0 at the default tolerances
fails the header check, and the run status is `exception` with a
`PRICE_VARIANCE` code. -/
theorem headerCheck_zero_po_spec_witness :
    (run2WayOutcome (2/100) 50 0 60 0 []).1 = MatchStatus.exception :=
  ((headerCheck_zero_po_spec 60 (2/100) 50 0 [] (by norm_num) (by norm_num)).2
    (by norm_num [headerCheck])).1

/-- C10: an invoice with zero line items is decided by the header check
alone in a 2-way run with a resolved PO: the overall status is `matched`
when the header passes and `exception` when it fails, and `partial` is never
produced. -/
theorem run2WayOutcome_no_lines (amtTolPct amtTolAbs qtyTolPct
    invTotal poTotal : ℚ) :
    (headerCheck invTotal poTotal amtTolPct amtTolAbs = true →
      (run2WayOutcome amtTolPct amtTolAbs qtyTolPct invTotal poTotal []).1
        = .matched)
    ∧ (headerCheck invTotal poTotal amtTolPct amtTolAbs = false →
      (run2WayOutcome amtTolPct amtTolAbs qtyTolPct invTotal poTotal []).1
        = .exception)
    ∧ (run2WayOutcome amtTolPct amtTolAbs qtyTolPct invTotal poTotal []).1
        ≠ .partialMatch := by
  refine ⟨?_, ?_, ?_⟩
  · intro hok; simp [run2WayOutcome, hok]
  · intro hfail; simp [run2WayOutcome, hfail]
  · rcases h : headerCheck invTotal poTotal amtTolPct amtTolAbs with _ | _
    · simp [run2WayOutcome, h]
    · simp [run2WayOutcome, h]

/-- C10 witness: a zero-line invoice whose total equals the PO total is
`matched`. -/
theorem run2WayOutcome_no_lines_witness :
    (run2WayOutcome (2/100) 50 0 4800 4800 []).1 = MatchStatus.matched :=
  (run2WayOutcome_no_lines (2/100) 50 0 4800 4800).1 (by norm_num [headerCheck])

/-! ### Approval decision processing

Embeds `process_approval_decision` (`services/approval.py` lines 119-322).
The task row, its invoice status, the stored tokens and the user table form
the state; the function returns the updated state or a typed error, one
constructor per `raise` site in the source.  An error result leaves the state
untouched, embedding the transaction rollback.  HMAC-SHA256 under the
configured secret is modeled as an abstract deterministic digest
`computeTokenHash`; no claim depends on properties of the digest beyond
determinism, which the model shares with the source. -/

/-- ApprovalTask status values (`models/approval.py`).  The source stores the
string `partially_approved`; it is named `partiallyApproved` here. -/
inductive TaskStatus
  | pending | partiallyApproved | approved | rejected | delegated | expired
deriving DecidableEq, Repr

/-- The two decision actions.  The source rejects any other string with an
invalid-action error before touching state; the inductive type makes that
case unrepresentable. -/
inductive DecisionAction
  | approve | reject
deriving DecidableEq, Repr

/-- Decision channels.  The source rejects any other string with an
unknown-channel error before touching state. -/
inductive ChannelKind
  | web | email
deriving DecidableEq, Repr

/-- One stored ApprovalToken row (`models/approval.py`). -/
structure ApprovalToken where
  taskId : Nat
  tokenHash : String
  action : DecisionAction
  expiresAt : Int
  isUsed : Bool
  usedAt : Option Int
deriving DecidableEq, Repr

/-- One ApprovalTask row: the fields read or written by
`process_approval_decision`. -/
structure ApprovalTask where
  id : Nat
  invoiceId : Nat
  approverId : Nat
  requiredCount : Nat
  status : TaskStatus
  decidedAt : Option Int
  decisionChannel : Option ChannelKind
  notes : Option String
deriving DecidableEq, Repr

/-- The rows touched by one approval decision: the task, its invoice status,
the token table restricted to this task, and the user table as id-role
pairs (roles are free strings in the source). -/
structure DecisionState where
  task : ApprovalTask
  invoiceStatus : InvoiceStatus
  tokens : List ApprovalToken
  users : List (Nat × String)
deriving DecidableEq, Repr

/-- One constructor per `raise ValueError` site of
`process_approval_decision`. -/
inductive DecisionError
  | alreadyDecided | missingToken | tokenNotFound | tokenInvalid | tokenUsed
  | tokenExpired | missingActor | notAssigned
deriving DecidableEq, Repr

/-- Abstract model of the HMAC-SHA256 digest computed by
`_compute_token_hash` and `create_approval_token` under the configured
secret. -/
def computeTokenHash (raw : String) : String :=
  "hmac-sha256:" ++ raw

/-- `verify_approval_token`: recompute the digest of the raw token and
compare with the stored hash. -/
def verifyApprovalToken (raw storedHash : String) : Bool :=
  computeTokenHash raw == storedHash

/-- Python truthiness of an optional string (`if notes:` and similar guards
in the source treat both None and the empty string as false). -/
def strTruthy : Option String → Bool
  | none => false
  | some s => !s.isEmpty

/-- The token lookup predicate: the stored row must match the task, the
recomputed hash and the action. -/
def tokenMatches (taskId : Nat) (rawHash : String) (action : DecisionAction)
    (t : ApprovalToken) : Bool :=
  t.taskId == taskId && t.tokenHash == rawHash && t.action == action

/-- Mark the first matching token row used at time `now` (the source mutates
the single row returned by its lookup). -/
def markTokenUsed (tokens : List ApprovalToken) (taskId : Nat)
    (rawHash : String) (action : DecisionAction) (now : Int) :
    List ApprovalToken :=
  match tokens with
  | [] => []
  | t :: ts =>
    if tokenMatches taskId rawHash action t then
      { t with isUsed := true, usedAt := some now } :: ts
    else t :: markTokenUsed ts taskId rawHash action now

/-- The common tail of `process_approval_decision` after channel validation:
stamp the decision metadata on the task, then apply the reject or approve
transition with the approval counting rule. -/
def applyDecision (s : DecisionState) (action : DecisionAction)
    (channel : ChannelKind) (now : Int) (notes : Option String) :
    Except DecisionError DecisionState :=
  let task1 := { s.task with
    decidedAt := some now
    decisionChannel := some channel
    notes := if strTruthy notes then notes else s.task.notes }
  match action with
  | .reject =>
      .ok { s with task := { task1 with status := .rejected },
                   invoiceStatus := .rejected }
  | .approve =>
      let priorApprovals := if s.task.status = .partiallyApproved then 1 else 0
      let approvedCount := priorApprovals + 1
      if approvedCount < s.task.requiredCount then
        .ok { s with task := { task1 with status := .partiallyApproved } }
      else
        .ok { s with task := { task1 with status := .approved },
                     invoiceStatus := .approved }

/-- `process_approval_decision`: state guard, then channel-specific
validation (email token lookup, verification, reuse and expiry checks and
consumption; web actor authorization), then the decision application. -/
def processApprovalDecision (s : DecisionState) (action : DecisionAction)
    (actorId : Option Nat) (tokenRaw : Option String) (channel : ChannelKind)
    (now : Int) (notes : Option String) : Except DecisionError DecisionState :=
  if s.task.status = .pending ∨ s.task.status = .partiallyApproved then
    match channel with
    | .email =>
      match tokenRaw with
      | none => .error .missingToken
      | some raw =>
        let rawHash := computeTokenHash raw
        match s.tokens.find? (tokenMatches s.task.id rawHash action) with
        | none => .error .tokenNotFound
        | some tok =>
          if !(verifyApprovalToken raw tok.tokenHash) then .error .tokenInvalid
          else if tok.isUsed then .error .tokenUsed
          else if tok.expiresAt < now then .error .tokenExpired
          else
            applyDecision
              { s with tokens := markTokenUsed s.tokens s.task.id rawHash action now }
              action channel now notes
    | .web =>
      match actorId with
      | none => .error .missingActor
      | some aid =>
        if aid == s.task.approverId then
          applyDecision s action channel now notes
        else
          match s.users.find? (fun u => u.1 == aid) with
          | none => .error .notAssigned
          | some u =>
            if u.2 == "APPROVER" || u.2 == "ADMIN" then
              applyDecision s action channel now notes
            else .error .notAssigned
  else .error .alreadyDecided

/-- The role recorded for a user id, as the source's user lookup sees it. -/
def lookupRole (users : List (Nat × String)) (uid : Nat) : Option String :=
  (users.find? (fun u => u.1 == uid)).map (fun u => u.2)

/-- `applyDecision` always succeeds. -/
theorem applyDecision_isOk (s : DecisionState) (action : DecisionAction)
    (channel : ChannelKind) (now : Int) (notes : Option String) :
    ∃ s', applyDecision s action channel now notes = .ok s' := by
  cases action with
  | approve =>
    by_cases h :
      (if s.task.status = .partiallyApproved then 1 else 0) + 1
        < s.task.requiredCount
    · exact ⟨_, by simp only [applyDecision]; rw [if_pos h]⟩
    · exact ⟨_, by simp only [applyDecision]; rw [if_neg h]⟩
  | reject => exact ⟨_, rfl⟩

/-- Web-channel call by the assigned approver on an undecided task reduces to
the decision tail. -/
theorem process_web_approver (s : DecisionState) (action : DecisionAction)
    (now : Int) (notes : Option String)
    (hst : s.task.status = .pending ∨ s.task.status = .partiallyApproved) :
    processApprovalDecision s action (some s.task.approverId) none .web now notes
      = applyDecision s action .web now notes := by
  simp [processApprovalDecision, hst]

/-- Web-channel processing on an undecided task, unfolded to the actor
authorization decision. -/
theorem process_web_unfold (s : DecisionState) (action : DecisionAction)
    (aid : Nat) (now : Int) (notes : Option String)
    (hst : s.task.status = .pending ∨ s.task.status = .partiallyApproved) :
    processApprovalDecision s action (some aid) none .web now notes
      = (if aid == s.task.approverId then applyDecision s action .web now notes
         else match s.users.find? (fun u => u.1 == aid) with
           | none => .error .notAssigned
           | some u =>
             if u.2 == "APPROVER" || u.2 == "ADMIN" then
               applyDecision s action .web now notes
             else .error .notAssigned) := by
  unfold processApprovalDecision
  rw [if_pos hst]

/-- Email-channel processing on an undecided task, unfolded to the token
validation chain. -/
theorem process_email_unfold (s : DecisionState) (action : DecisionAction)
    (raw : String) (now : Int) (notes : Option String)
    (hst : s.task.status = .pending ∨ s.task.status = .partiallyApproved) :
    processApprovalDecision s action none (some raw) .email now notes
      = (match s.tokens.find?
            (tokenMatches s.task.id (computeTokenHash raw) action) with
         | none => .error .tokenNotFound
         | some tok =>
           if !(verifyApprovalToken raw tok.tokenHash) then .error .tokenInvalid
           else if tok.isUsed then .error .tokenUsed
           else if tok.expiresAt < now then .error .tokenExpired
           else applyDecision
             { s with tokens :=
                markTokenUsed s.tokens s.task.id (computeTokenHash raw) action now }
             action .email now notes) := by
  unfold processApprovalDecision
  rw [if_pos hst]

/-- C3: an approve decision on a task in status `pending` or
`partially_approved` (here submitted on the web channel by the assigned
approver) succeeds; with `approved_count` equal to 1 plus 1 when the prior
status was `partially_approved`, the task moves to `partially_approved` with
the invoice untouched when `approved_count` is below `required_count`, and
to `approved` with the invoice `approved` otherwise.  A decision on a task
in any other status fails with the already-decided error, for every action,
actor, token and channel, changing nothing. -/
theorem approveDecision_spec (s : DecisionState) (now : Int)
    (notes : Option String) :
    ((s.task.status = .pending ∨ s.task.status = .partiallyApproved) →
      ∃ s', processApprovalDecision s .approve (some s.task.approverId) none
              .web now notes = .ok s'
        ∧ ((if s.task.status = .partiallyApproved then 1 else 0) + 1
              < s.task.requiredCount →
            s'.task.status = .partiallyApproved
              ∧ s'.invoiceStatus = s.invoiceStatus)
        ∧ (s.task.requiredCount
              ≤ (if s.task.status = .partiallyApproved then 1 else 0) + 1 →
            s'.task.status = .approved ∧ s'.invoiceStatus = .approved))
    ∧ (¬(s.task.status = .pending ∨ s.task.status = .partiallyApproved) →
      ∀ action actorId tokenRaw channel notes2,
        processApprovalDecision s action actorId tokenRaw channel now notes2
          = .error .alreadyDecided) := by
  constructor
  · intro hst
    rw [process_web_approver s .approve now notes hst]
    by_cases h :
      (if s.task.status = .partiallyApproved then 1 else 0) + 1
        < s.task.requiredCount
    · have happ : applyDecision s .approve .web now notes
          = .ok { s with task := { s.task with
              decidedAt := some now, decisionChannel := some ChannelKind.web,
              notes := if strTruthy notes then notes else s.task.notes,
              status := .partiallyApproved } } := by
        simp only [applyDecision]; rw [if_pos h]
      exact ⟨_, happ, fun _ => ⟨rfl, rfl⟩,
        fun hge => absurd h (not_lt.mpr hge)⟩
    · have happ : applyDecision s .approve .web now notes
          = .ok { s with
              task := { s.task with
                decidedAt := some now, decisionChannel := some ChannelKind.web,
                notes := if strTruthy notes then notes else s.task.notes,
                status := .approved },
              invoiceStatus := .approved } := by
        simp only [applyDecision]; rw [if_neg h]
      exact ⟨_, happ, fun hlt => absurd hlt h, fun _ => ⟨rfl, rfl⟩⟩
  · intro hst action actorId tokenRaw channel notes2
    simp [processApprovalDecision, hst]

/-- A one-step approval task awaiting its single approval. -/
def state3 : DecisionState :=
  { task := { id := 3, invoiceId := 9, approverId := 1, requiredCount := 1,
              status := .pending, decidedAt := none, decisionChannel := none,
              notes := none },
    invoiceStatus := .matched, tokens := [], users := [] }

/-- C3 witness: one approve by the assigned approver on a pending one-step
task succeeds. -/
theorem approveDecision_spec_witness :
    (processApprovalDecision state3 .approve (some 1) none .web 0 none).isOk
      = true := by
  show (processApprovalDecision state3 .approve (some state3.task.approverId)
    none .web 0 none).isOk = true
  obtain ⟨s', hok, -, -⟩ :=
    (approveDecision_spec state3 0 none).1 (Or.inl rfl)
  rw [hok]
  rfl

/-- A pending one-step task assigned to user 1, with a second user that has
role APPROVER but is not assigned. -/
def state2 : DecisionState :=
  { task := { id := 3, invoiceId := 9, approverId := 1, requiredCount := 1,
              status := .pending, decidedAt := none, decisionChannel := none,
              notes := none },
    invoiceStatus := .matched, tokens := [], users := [(2, "APPROVER")] }

/-- The state reached after user 2 approves on `state2`. -/
def state2Out : DecisionState :=
  { task := { id := 3, invoiceId := 9, approverId := 1, requiredCount := 1,
              status := .approved, decidedAt := some 0,
              decisionChannel := some ChannelKind.web, notes := none },
    invoiceStatus := .approved, tokens := [], users := [(2, "APPROVER")] }

/-- C2 counterexample: an actor who is neither the assigned approver (user 1)
nor an ADMIN, but holds the APPROVER role, is accepted by the web channel,
contradicting the claim that every such actor fails with a not-assigned
error. -/
theorem webDecision_unassigned_approver_accepted :
    processApprovalDecision state2 .approve (some 2) none .web 0 none
      = .ok state2Out
    ∧ state2.task.approverId = 1
    ∧ lookupRole state2.users 2 = some "APPROVER" :=
  ⟨rfl, rfl, rfl⟩

/-- C2 (amended): on the web channel, a decision on an undecided task is
accepted exactly when the actor is the assigned approver or the actor's
stored role is APPROVER or ADMIN; every other actor fails with the
not-assigned error, which leaves every row unchanged. -/
theorem webDecision_auth_spec (s : DecisionState) (aid : Nat)
    (action : DecisionAction) (now : Int) (notes : Option String)
    (hst : s.task.status = .pending ∨ s.task.status = .partiallyApproved) :
    ((∃ s', processApprovalDecision s action (some aid) none .web now notes
        = .ok s') ↔
      (aid = s.task.approverId ∨
        ∃ role, lookupRole s.users aid = some role ∧
          (role = "APPROVER" ∨ role = "ADMIN")))
    ∧ (¬(aid = s.task.approverId ∨
        ∃ role, lookupRole s.users aid = some role ∧
          (role = "APPROVER" ∨ role = "ADMIN")) →
      processApprovalDecision s action (some aid) none .web now notes
        = .error .notAssigned) := by
  rw [process_web_unfold s action aid now notes hst]
  by_cases ha : aid = s.task.approverId
  · rw [if_pos (by simp [ha])]
    refine ⟨⟨fun _ => Or.inl ha, fun _ => applyDecision_isOk s action .web now notes⟩, ?_⟩
    intro hn; exact absurd (Or.inl ha) hn
  · rw [if_neg (by simp [ha])]
    cases hfind : s.users.find? (fun u => u.1 == aid) with
    | none =>
      have hlr : lookupRole s.users aid = none := by
        simp [lookupRole, hfind]
      refine ⟨⟨?_, ?_⟩, fun _ => rfl⟩
      · rintro ⟨s', hs'⟩; cases hs'
      · rintro (h | ⟨role, hrole, _⟩)
        · exact absurd h ha
        · rw [hlr] at hrole; cases hrole
    | some u =>
      dsimp only
      have hlr : lookupRole s.users aid = some u.2 := by
        simp [lookupRole, hfind]
      by_cases hrole : u.2 = "APPROVER" ∨ u.2 = "ADMIN"
      · have hb : (u.2 == "APPROVER" || u.2 == "ADMIN") = true := by
          rcases hrole with h | h <;> simp [h]
        rw [if_pos hb]
        refine ⟨⟨fun _ => Or.inr ⟨u.2, hlr, hrole⟩,
          fun _ => applyDecision_isOk s action .web now notes⟩, ?_⟩
        intro hn; exact absurd (Or.inr ⟨u.2, hlr, hrole⟩) hn
      · have hb : ¬ ((u.2 == "APPROVER" || u.2 == "ADMIN") = true) := by
          simp only [Bool.or_eq_true, beq_iff_eq]
          exact hrole
        rw [if_neg hb]
        refine ⟨⟨?_, ?_⟩, fun _ => rfl⟩
        · rintro ⟨s', hs'⟩; cases hs'
        · rintro (h | ⟨role, hl, hor⟩)
          · exact absurd h ha
          · rw [hlr] at hl
            injection hl with he
            exact absurd (he ▸ hor) hrole

/-- C2 witness: an actor carrying the APPROVER role is accepted on the web
channel. -/
theorem webDecision_auth_spec_witness :
    (processApprovalDecision state2 .approve (some 2) none .web 0 none).isOk
      = true := by
  obtain ⟨s', hok⟩ :=
    (webDecision_auth_spec state2 2 .approve 0 none (Or.inl rfl)).1.mpr
      (Or.inr ⟨"APPROVER", rfl, Or.inl rfl⟩)
  rw [hok]
  rfl

/-- C8 (amended): on the email channel, with the presented raw token hashing
to a stored unused token of the task and the task still undecided, the
decision fails with the expired-token error exactly when the current time is
strictly past the token expiry (leaving token, task and invoice unchanged);
a token presented exactly at its expiry instant (current time equal to
expires_at) is accepted and the decision proceeds. -/
theorem emailToken_expiry_spec (s : DecisionState) (raw : String)
    (action : DecisionAction) (now : Int) (notes : Option String)
    (tok : ApprovalToken)
    (hst : s.task.status = .pending ∨ s.task.status = .partiallyApproved)
    (hfind : s.tokens.find?
      (tokenMatches s.task.id (computeTokenHash raw) action) = some tok)
    (hused : tok.isUsed = false) :
    (now ≤ tok.expiresAt →
      ∃ s', processApprovalDecision s action none (some raw) .email now notes
        = .ok s')
    ∧ (tok.expiresAt < now →
      processApprovalDecision s action none (some raw) .email now notes
        = .error .tokenExpired) := by
  have hp := List.find?_some hfind
  simp only [tokenMatches, Bool.and_eq_true, beq_iff_eq] at hp
  have hverify : verifyApprovalToken raw tok.tokenHash = true := by
    simp [verifyApprovalToken, hp.1.2]
  have hred : processApprovalDecision s action none (some raw) .email now notes
      = (if tok.expiresAt < now then .error .tokenExpired
         else applyDecision
           { s with tokens :=
              markTokenUsed s.tokens s.task.id (computeTokenHash raw) action now }
           action .email now notes) := by
    rw [process_email_unfold s action raw now notes hst, hfind]
    dsimp only
    rw [hverify]
    simp [hused]
  constructor
  · intro hle
    rw [hred, if_neg (not_lt.mpr hle)]
    exact applyDecision_isOk _ _ _ _ _
  · intro hlt
    rw [hred, if_pos hlt]

/-- An approve token for task 5 expiring at time 100. -/
def tok8 : ApprovalToken :=
  { taskId := 5, tokenHash := computeTokenHash "raw-approve-token",
    action := .approve, expiresAt := 100, isUsed := false, usedAt := none }

/-- A pending one-step task holding `tok8`. -/
def state8 : DecisionState :=
  { task := { id := 5, invoiceId := 9, approverId := 1, requiredCount := 1,
              status := .pending, decidedAt := none, decisionChannel := none,
              notes := none },
    invoiceStatus := .matched, tokens := [tok8], users := [] }

/-- The state reached when `tok8` is consumed at time 100. -/
def state8Out : DecisionState :=
  { task := { id := 5, invoiceId := 9, approverId := 1, requiredCount := 1,
              status := .approved, decidedAt := some 100,
              decisionChannel := some ChannelKind.email, notes := none },
    invoiceStatus := .approved,
    tokens := [{ taskId := 5, tokenHash := computeTokenHash "raw-approve-token",
                 action := .approve, expiresAt := 100, isUsed := true,
                 usedAt := some 100 }],
    users := [] }

/-- C8 counterexample: a token presented exactly at its expiry instant
(now = expires_at = 100) is accepted: the decision succeeds, the token is
consumed and task and invoice are approved, contradicting the claim that
the decision fails with no state change. -/
theorem emailToken_at_expiry_accepted :
    processApprovalDecision state8 .approve none (some "raw-approve-token")
        .email 100 none = .ok state8Out
    ∧ tok8.expiresAt = 100 := ⟨rfl, rfl⟩

/-- C8 witness: the same token presented before expiry (time 50) is
accepted. -/
theorem emailToken_expiry_spec_witness :
    (processApprovalDecision state8 .approve none (some "raw-approve-token")
      .email 50 none).isOk = true := by
  obtain ⟨s', hok⟩ :=
    (emailToken_expiry_spec state8 "raw-approve-token" .approve 50 none tok8
      (Or.inl rfl) rfl rfl).1 (by norm_num [tok8])
  rw [hok]
  rfl

/-! ### Invoice pipeline status trace

Embeds the committed invoice-status mutations of the Celery job
`process_invoice` (`workers/tasks.py` lines 53-325).  The job fetches the
invoice and sets `status = "extracting"` unconditionally — lines 77-96
contain no check of the predecessor state — then commits `exception` when
extraction fails (both passes erred and no raw text), else `extracted`, then
`matching`, then the status decided by the match persistence gate.  The
stage outcomes are summarized as inputs. -/

/-- The sequence of invoice statuses committed by one `process_invoice` run,
headed by the status the invoice held when the job began. -/
def processInvoiceStatusTrace (st0 : InvoiceStatus) (extractionFailed : Bool)
    (ms : MatchStatus) (invTotal threshold : ℚ) (requiresMatch : Bool) :
    List InvoiceStatus :=
  if extractionFailed then [st0, .extracting, .exception]
  else [st0, .extracting, .extracted, .matching,
        persistNewStatus ms invTotal threshold requiresMatch]

/-- C5: re-running the pipeline job on an invoice already in status
`approved` is not a no-op: the job moves the invoice to `extracting` with no
predecessor-state check and (here with a failing re-extraction) commits
`exception`, so the status and fields change. -/
theorem processInvoice_rerun_on_approved_mutates :
    processInvoiceStatusTrace .approved true .matched 0 0 true
      = [.approved, .extracting, .exception] := rfl

/-! ### Active matching-rule loading

Embeds `get_active_match_rules` (`rules/match_engine.py` lines 59-91): the
latest published `matching_tolerance` RuleVersion by `created_at`, its
parsed config with missing keys defaulted, and the fallback behavior. -/

/-- Rule-version lifecycle statuses (`models/rule.py`). -/
inductive VersionStatus
  | draft | in_review | published | superseded | rejected | archived
deriving DecidableEq, Repr

/-- The `matching_tolerance` config keys with their resolved values
(`DEFAULT_TOLERANCE` in `rules/match_engine.py`). -/
structure ToleranceConfig where
  amount_tolerance_pct : ℚ
  amount_tolerance_abs : ℚ
  qty_tolerance_pct : ℚ
  auto_approve_threshold : ℚ
  auto_approve_requires_match : Bool
deriving DecidableEq, Repr

/-- The hardcoded default tolerance config. -/
def DEFAULT_TOLERANCE : ToleranceConfig :=
  { amount_tolerance_pct := 2/100, amount_tolerance_abs := 50,
    qty_tolerance_pct := 0, auto_approve_threshold := 5000,
    auto_approve_requires_match := true }

/-- A successfully parsed config payload, with possibly missing keys (the
source fills missing keys from the defaults via `setdefault`). -/
structure PartialToleranceConfig where
  amount_tolerance_pct : Option ℚ
  amount_tolerance_abs : Option ℚ
  qty_tolerance_pct : Option ℚ
  auto_approve_threshold : Option ℚ
  auto_approve_requires_match : Option Bool
deriving DecidableEq, Repr

/-- Fill missing keys from `DEFAULT_TOLERANCE`. -/
def applyConfigDefaults (c : PartialToleranceConfig) : ToleranceConfig :=
  { amount_tolerance_pct :=
      c.amount_tolerance_pct.getD DEFAULT_TOLERANCE.amount_tolerance_pct,
    amount_tolerance_abs :=
      c.amount_tolerance_abs.getD DEFAULT_TOLERANCE.amount_tolerance_abs,
    qty_tolerance_pct :=
      c.qty_tolerance_pct.getD DEFAULT_TOLERANCE.qty_tolerance_pct,
    auto_approve_threshold :=
      c.auto_approve_threshold.getD DEFAULT_TOLERANCE.auto_approve_threshold,
    auto_approve_requires_match :=
      c.auto_approve_requires_match.getD
        DEFAULT_TOLERANCE.auto_approve_requires_match }

/-- One RuleVersion row joined with its parent rule, as the loader query
sees it.  `parsedConfig = none` models a `config_json` payload on which
`json.loads` raises. -/
structure LoaderRuleVersion where
  id : Nat
  createdAt : Int
  status : VersionStatus
  ruleIsActive : Bool
  ruleType : String
  parsedConfig : Option PartialToleranceConfig
deriving DecidableEq, Repr

/-- The loader query filter: active `matching_tolerance` rule, published
version. -/
def eligibleMatchRule (r : LoaderRuleVersion) : Bool :=
  r.ruleType == "matching_tolerance" && r.ruleIsActive
    && (r.status == VersionStatus.published)

/-- The first row of the loader query, which orders eligible rows by
`created_at` descending: an eligible row with maximal `created_at`. -/
def selectLatestPublished (rows : List LoaderRuleVersion) :
    Option LoaderRuleVersion :=
  rows.foldl (fun acc r =>
    if eligibleMatchRule r then
      match acc with
      | none => some r
      | some b => if b.createdAt < r.createdAt then some r else some b
    else acc) none

/-- `get_active_match_rules`: defaults with a null identifier when no
published version exists; parsed config (with defaulted keys) and the
version id on success; defaults but still the version id when the payload
fails to parse. -/
def getActiveMatchRules (rows : List LoaderRuleVersion) :
    ToleranceConfig × Option Nat :=
  match selectLatestPublished rows with
  | none => (DEFAULT_TOLERANCE, none)
  | some rv =>
    match rv.parsedConfig with
    | some c => (applyConfigDefaults c, some rv.id)
    | none => (DEFAULT_TOLERANCE, some rv.id)

/-- A published matching_tolerance version whose payload fails to parse. -/
def badRow9 : LoaderRuleVersion :=
  { id := 42, createdAt := 0, status := .published, ruleIsActive := true,
    ruleType := "matching_tolerance", parsedConfig := none }

/-- C9 counterexample: with one published matching_tolerance version whose
config payload fails to parse, the loader returns the defaults together
with that version's identifier 42, not a null identifier as the claim
states. -/
theorem getActiveMatchRules_parse_failure_keeps_id :
    getActiveMatchRules [badRow9] = (DEFAULT_TOLERANCE, some 42) := rfl

/-- C9 (amended): when the selected published version's config payload fails
to parse, the loader logs and returns the hardcoded default config together
with that version's identifier (not null); the returned identifier is null
exactly in the no-published-version fallback. -/
theorem getActiveMatchRules_spec (rows : List LoaderRuleVersion) :
    (∀ rv, selectLatestPublished rows = some rv → rv.parsedConfig = none →
      getActiveMatchRules rows = (DEFAULT_TOLERANCE, some rv.id))
    ∧ (selectLatestPublished rows = none →
      getActiveMatchRules rows = (DEFAULT_TOLERANCE, none)) := by
  constructor
  · intro rv hsel hcfg
    simp [getActiveMatchRules, hsel, hcfg]
  · intro hsel
    simp [getActiveMatchRules, hsel]

/-- C9 witness: with no stored rule versions at all, the loader returns the
defaults and a null identifier. -/
theorem getActiveMatchRules_spec_witness :
    getActiveMatchRules [] = (DEFAULT_TOLERANCE, none) :=
  (getActiveMatchRules_spec []).2 rfl

/-! ### Duplicate detection

Embeds `check_duplicate` (`services/duplicate_detection.py` lines 21-127):
the exact check (same vendor and invoice number on another non-deleted
invoice), the fuzzy check (same vendor, normalized amount within 2 percent,
invoice date — or creation date as fallback — within 7 days), and the
exception upsert.  Dates are day numbers; the invoice table is the list of
other invoice rows. -/

/-- The invoice columns read by duplicate detection, plus the
`is_duplicate` flag. -/
structure DupInvoice where
  id : Nat
  vendorId : Option Nat
  invoiceNumber : Option String
  normalizedAmountUsd : Option ℚ
  invoiceDate : Option Int
  createdAt : Int
  deletedAt : Option Int
  isDuplicate : Bool
deriving DecidableEq, Repr

/-- The two duplicate match kinds reported by `check_duplicate`. -/
inductive DupKind
  | exact | fuzzy
deriving DecidableEq, Repr

/-- An ExceptionRecord row restricted to the columns duplicate detection
touches. -/
structure ExcRecord where
  invoiceId : Nat
  code : ExcCode
  severity : Severity
  status : String
deriving DecidableEq, Repr

/-- `_ensure_exception`: insert an open exception for the invoice and code
unless one is already open (upsert by invoice and code). -/
def ensureException (excs : List ExcRecord) (invoiceId : Nat)
    (code : ExcCode) (severity : Severity) : List ExcRecord :=
  if excs.any (fun e =>
      e.invoiceId == invoiceId && e.code == code && e.status == "open") then
    excs
  else
    excs ++ [{ invoiceId := invoiceId, code := code, severity := severity,
               status := "open" }]

/-- Fuzzy-match amount tolerance (module constant, 2 percent). -/
def AMOUNT_TOLERANCE_PCT : ℚ := 2/100

/-- Fuzzy-match date window (module constant, 7 days). -/
def DATE_WINDOW_DAYS : Int := 7

/-- `check_duplicate`: the exact check followed by the fuzzy check.  Returns
the reported matches, the exception table after the upserts, and the target
invoice row as the function leaves it — `check_duplicate` performs no
assignment to `is_duplicate`, so the row is returned unchanged. -/
def checkDuplicate (inv : DupInvoice) (invoices : List DupInvoice)
    (excs : List ExcRecord) :
    List (DupKind × Nat) × List ExcRecord × DupInvoice :=
  let exactHit : Option DupInvoice :=
    if inv.vendorId.isSome && strTruthy inv.invoiceNumber then
      invoices.find? (fun o =>
        o.vendorId == inv.vendorId && o.invoiceNumber == inv.invoiceNumber
          && o.deletedAt == none && !(o.id == inv.id))
    else none
  let matches1 : List (DupKind × Nat) :=
    match exactHit with
    | some m => [(DupKind.exact, m.id)]
    | none => []
  let excs1 : List ExcRecord :=
    match exactHit with
    | some _ => ensureException excs inv.id .DUPLICATE_INVOICE .high
    | none => excs
  let fuzzyHit : Option DupInvoice :=
    match inv.vendorId, inv.normalizedAmountUsd with
    | some _, some normAmt =>
      let low := normAmt * (1 - AMOUNT_TOLERANCE_PCT)
      let high := normAmt * (1 + AMOUNT_TOLERANCE_PCT)
      let dateCenter := inv.invoiceDate.getD inv.createdAt
      let dateLow := dateCenter - DATE_WINDOW_DAYS
      let dateHigh := dateCenter + DATE_WINDOW_DAYS
      (invoices.filter (fun o =>
          o.vendorId == inv.vendorId && o.normalizedAmountUsd.isSome
            && decide (low ≤ o.normalizedAmountUsd.getD 0)
            && decide (o.normalizedAmountUsd.getD 0 ≤ high)
            && o.deletedAt == none && !(o.id == inv.id))).find? (fun c =>
        let candDate := c.invoiceDate.getD c.createdAt
        decide (dateLow ≤ candDate) && decide (candDate ≤ dateHigh)
          && !(matches1.any (fun m => m.2 == c.id)))
    | _, _ => none
  let matches2 : List (DupKind × Nat) :=
    match fuzzyHit with
    | some c => [(DupKind.fuzzy, c.id)]
    | none => []
  let excs2 : List ExcRecord :=
    match fuzzyHit with
    | some _ => ensureException excs1 inv.id .DUPLICATE_INVOICE .medium
    | none => excs1
  (matches1 ++ matches2, excs2, inv)

/-- The duplicate-detection target: vendor 7, invoice number INV-001 (no
normalized amount yet, so only the exact check can fire). -/
def inv6 : DupInvoice :=
  { id := 1, vendorId := some 7, invoiceNumber := some "INV-001",
    normalizedAmountUsd := none, invoiceDate := some 0, createdAt := 0,
    deletedAt := none, isDuplicate := false }

/-- A second non-deleted invoice with the same vendor and invoice number. -/
def other6 : DupInvoice :=
  { id := 2, vendorId := some 7, invoiceNumber := some "INV-001",
    normalizedAmountUsd := some 1000, invoiceDate := some 0, createdAt := 0,
    deletedAt := none, isDuplicate := false }

/-- C6: on an exact duplicate hit (same vendor 7 and invoice number INV-001
on non-deleted invoice 2), `check_duplicate` reports the match and upserts
the high-severity DUPLICATE_INVOICE exception, but the target invoice's
`is_duplicate` flag is left false — the function never sets it, although the
claim, the spec and the repository's own test
(`tests/test_duplicate_detection.py` line 149) require it to become true. -/
theorem checkDuplicate_hit_leaves_flag_unset :
    (checkDuplicate inv6 [other6] []).1 = [(DupKind.exact, 2)]
    ∧ (checkDuplicate inv6 [other6] []).2.1
        = [{ invoiceId := 1, code := .DUPLICATE_INVOICE, severity := .high,
             status := "open" }]
    ∧ (checkDuplicate inv6 [other6] []).2.2.isDuplicate = false :=
  ⟨rfl, rfl, rfl⟩

/-! ### Rule version publishing

Embeds `publish_rule` (`api/v1/rules.py` lines 263-295): publishing is
allowed only from `draft` or `in_review`; in the same transaction every
other `published` version of the same parent rule is marked `superseded`
and the target version becomes `published`. -/

/-- One RuleVersion row restricted to the columns `publish_rule` touches. -/
structure RuleVersionRow where
  id : Nat
  ruleId : Nat
  status : VersionStatus
  publishedAt : Option Int
  reviewedBy : Option Nat
deriving DecidableEq, Repr

/-- The per-row effect of publishing version `vid` of rule `targetRuleId`:
the target becomes `published` with timestamp and reviewer; any other
`published` version of the same rule becomes `superseded`; all other rows
are untouched. -/
def publishMap (vid : Nat) (now : Int) (reviewerId : Nat)
    (targetRuleId : Nat) (w : RuleVersionRow) : RuleVersionRow :=
  if w.id == vid then
    { w with status := .published, publishedAt := some now,
             reviewedBy := some reviewerId }
  else if w.ruleId == targetRuleId && w.status == VersionStatus.published then
    { w with status := .superseded }
  else w

/-- `publish_rule`: 404 when the version does not exist, a status error
unless the version is `draft` or `in_review`, else the atomic
supersede-and-publish update of the version table. -/
def publishRule (versions : List RuleVersionRow) (versionId : Nat)
    (now : Int) (reviewerId : Nat) : Except String (List RuleVersionRow) :=
  match versions.find? (fun v => v.id == versionId) with
  | none => .error "Rule version not found."
  | some v =>
    if v.status = .draft ∨ v.status = .in_review then
      .ok (versions.map (publishMap versionId now reviewerId v.ruleId))
    else .error "Cannot publish a rule version in this status."

/-- The number of `published` versions of rule `rid` in the table. -/
def publishedCount (vs : List RuleVersionRow) (rid : Nat) : Nat :=
  (vs.filter (fun w =>
    w.ruleId == rid && w.status == VersionStatus.published)).length

/-- With pairwise distinct keys, at most one element carries a given key. -/
theorem countP_beq_le_one_of_nodup_map {α : Type} (f : α → Nat) (l : List α)
    (h : (l.map f).Nodup) (x : Nat) :
    l.countP (fun a => f a == x) ≤ 1 := by
  induction l with
  | nil => simp
  | cons a t ih =>
    rw [List.map_cons, List.nodup_cons] at h
    rw [List.countP_cons]
    by_cases hax : f a = x
    · have hzero : t.countP (fun a => f a == x) = 0 := by
        rw [List.countP_eq_zero]
        intro b hb hpb
        have hfb : f b = x := by simpa using hpb
        exact h.1 (by rw [hax, ← hfb]; exact List.mem_map_of_mem f hb)
      simp [hzero, hax]
    · have hb : (f a == x) = false := beq_eq_false_iff_ne.mpr hax
      simp only [hb, if_false]
      simpa using ih h.2

/-- C4: when `publish_rule` succeeds, the target version existed with status
`draft` or `in_review`, every other previously `published` version of the
same rule is now `superseded`, and — given pairwise distinct version ids and
the at-most-one-published invariant before the call — the invariant that
each rule has at most one `published` version holds at the commit
boundary. -/
theorem publishRule_spec (vs vs' : List RuleVersionRow) (vid : Nat)
    (now : Int) (reviewerId : Nat)
    (hids : (vs.map (fun w => w.id)).Nodup)
    (hpre : ∀ rid, publishedCount vs rid ≤ 1)
    (hok : publishRule vs vid now reviewerId = .ok vs') :
    (∃ v, v ∈ vs ∧ v.id = vid ∧ (v.status = .draft ∨ v.status = .in_review)
      ∧ ∀ w ∈ vs, w.ruleId = v.ruleId → w.status = .published → w.id ≠ vid →
          { w with status := VersionStatus.superseded } ∈ vs')
    ∧ (∀ rid, publishedCount vs' rid ≤ 1) := by
  unfold publishRule at hok
  cases hfind : vs.find? (fun v => v.id == vid) with
  | none =>
    rw [hfind] at hok
    cases hok
  | some v =>
    rw [hfind] at hok
    dsimp only at hok
    by_cases hstat : v.status = .draft ∨ v.status = .in_review
    · rw [if_pos hstat] at hok
      injection hok with hmap
      subst hmap
      have hvmem : v ∈ vs := List.mem_of_find?_eq_some hfind
      have hvid : v.id = vid := by
        have hp := List.find?_some hfind
        simpa using hp
      have huniq : ∀ w ∈ vs, w.id = vid → w = v := by
        intro w hw hwid
        exact List.inj_on_of_nodup_map hids hw hvmem (by rw [hwid, hvid])
      constructor
      · refine ⟨v, hvmem, hvid, hstat, ?_⟩
        intro w hw hrule hpub hwid
        have hfw : publishMap vid now reviewerId v.ruleId w
            = { w with status := VersionStatus.superseded } := by
          unfold publishMap
          rw [if_neg (by simp [hwid]), if_pos (by simp [hrule, hpub])]
        have hmem :=
          List.mem_map_of_mem (publishMap vid now reviewerId v.ruleId) hw
        rwa [hfw] at hmem
      · intro rid
        unfold publishedCount
        rw [← List.countP_eq_length_filter, List.countP_map]
        by_cases hr : rid = v.ruleId
        · subst hr
          refine le_trans (List.countP_mono_left ?_)
            (countP_beq_le_one_of_nodup_map (fun w => w.id) vs hids vid)
          intro w hw hpw
          by_cases hwid : w.id = vid
          · simp [hwid]
          · exfalso
            simp only [Function.comp] at hpw
            unfold publishMap at hpw
            rw [if_neg (by simp [hwid])] at hpw
            by_cases hsup :
                (w.ruleId == v.ruleId
                  && w.status == VersionStatus.published) = true
            · rw [if_pos hsup] at hpw
              simp at hpw
            · rw [if_neg hsup] at hpw
              exact hsup hpw
        · have hcong : ∀ w ∈ vs,
              ((fun w => w.ruleId == rid
                  && w.status == VersionStatus.published) ∘
                publishMap vid now reviewerId v.ruleId) w = true ↔
              (w.ruleId == rid
                  && w.status == VersionStatus.published) = true := by
            intro w hw
            simp only [Function.comp]
            unfold publishMap
            by_cases hwid : w.id = vid
            · have hwv : w = v := huniq w hw hwid
              subst hwv
              rw [if_pos (by simp [hwid])]
              have hfalse : (w.ruleId == rid) = false :=
                beq_eq_false_iff_ne.mpr (fun hh => hr hh.symm)
              simp [hfalse]
            · rw [if_neg (by simp [hwid])]
              by_cases hsup :
                  (w.ruleId == v.ruleId
                    && w.status == VersionStatus.published) = true
              · rw [if_pos hsup]
                have hwr : w.ruleId = v.ruleId := by
                  have hs := hsup
                  simp only [Bool.and_eq_true, beq_iff_eq] at hs
                  exact hs.1
                have hfalse : (w.ruleId == rid) = false := by
                  rw [hwr]
                  exact beq_eq_false_iff_ne.mpr (fun hh => hr hh.symm)
                simp [hfalse]
              · rw [if_neg hsup]
          rw [List.countP_congr hcong]
          have hgoal := hpre rid
          unfold publishedCount at hgoal
          rwa [← List.countP_eq_length_filter] at hgoal
    · rw [if_neg hstat] at hok
      cases hok

/-- A rule-10 version table: version 1 published, version 2 draft. -/
def vs4 : List RuleVersionRow :=
  [{ id := 1, ruleId := 10, status := .published, publishedAt := some 0,
     reviewedBy := none },
   { id := 2, ruleId := 10, status := .draft, publishedAt := none,
     reviewedBy := none }]

/-- The table after publishing version 2 at time 5 by reviewer 9. -/
def vs4After : List RuleVersionRow :=
  [{ id := 1, ruleId := 10, status := .superseded, publishedAt := some 0,
     reviewedBy := none },
   { id := 2, ruleId := 10, status := .published, publishedAt := some 5,
     reviewedBy := some 9 }]

/-- C4 witness: publishing draft version 2 supersedes published version 1
and rule 10 still has at most one published version afterwards. -/
theorem publishRule_spec_witness :
    publishedCount vs4After 10 ≤ 1 := by
  refine ((publishRule_spec vs4 vs4After 2 5 9 (by decide) ?_ rfl).2) 10
  intro rid
  by_cases h : rid = 10
  · subst h
    decide
  · have hb : ((10 : Nat) == rid) = false :=
      beq_eq_false_iff_ne.mpr (fun hh => h hh.symm)
    simp [publishedCount, vs4, List.filter, hb]

end APM
